import Mathlib

/-!
Verification development for the Hushify-Messenger end-to-end-encrypted
messaging core.

The development shallowly embeds the TypeScript sources:

* `src/lib/encryptionService.ts` — the `KeyStorage` singleton and the
  `encryptionService` operations (`setContactPublicKey`,
  `computeSharedSecret`, `encryptMessage`, `decryptMessage`).  The
  cryptographic primitives these call (`nacl.box.after`,
  `nacl.box.open.after`, `nacl.box.before` from tweetnacl, i.e.
  XSalsa20-Poly1305 secretbox over an X25519 shared key) are embedded
  bit-for-bit following the reference algorithms.  Byte strings are
  `List Nat` (each entry one octet); the Base64/UTF-8 transport encodings
  applied by `tweetnacl-util` are external to the repository and are not
  modelled — plaintexts, keys, nonces and ciphertexts are byte lists.
* the socket server (`initSocketServer`) — connection registration,
  `message:send`, `message:delivered`, `message:read`, typing relays,
  the pending-message drain and the disconnect handler, together with the
  Redis keys they touch (`user:{id}:online`, `user:{id}:last_seen`,
  `user:{id}:pending_messages`).  Redis is modelled as in-process maps;
  TTLs set via `expire` are recorded as data (real-time lapse of a TTL is
  not modelled).  `JSON.stringify`/`JSON.parse` of a pending entry are
  modelled as the identity on the structured value (the code only ever
  parses strings it itself produced).
* the messages REST route — the `conversationId` computation
  `[a, b].sort().join('_')`.
-/

namespace Hushify

/-- Byte strings: each entry is one octet (values taken modulo 2^8 by the
primitives that produce them; no theorem depends on range side conditions). -/
abbrev Bytes := List Nat

/-! ### Salsa20 core (tweetnacl `core_salsa20` / `core_hsalsa20`) -/

/-- The word modulus 2^32 of the Salsa20 core. -/
def M32 : Nat := 4294967296

/-- Rotate a 32-bit word left by `n` bits. -/
def rotl32 (x n : Nat) : Nat := ((x <<< n) ||| (x >>> (32 - n))) % M32

/-- Salsa20 quarterround applied in place at indices `i0 i1 i2 i3` of the
16-word state. -/
def qr (s : List Nat) (i0 i1 i2 i3 : Nat) : List Nat :=
  let y0 := s.getD i0 0
  let y1 := s.getD i1 0
  let y2 := s.getD i2 0
  let y3 := s.getD i3 0
  let z1 := Nat.xor y1 (rotl32 ((y0 + y3) % M32) 7)
  let z2 := Nat.xor y2 (rotl32 ((z1 + y0) % M32) 9)
  let z3 := Nat.xor y3 (rotl32 ((z2 + z1) % M32) 13)
  let z0 := Nat.xor y0 (rotl32 ((z3 + z2) % M32) 18)
  (((s.set i0 z0).set i1 z1).set i2 z2).set i3 z3

/-- Salsa20 column round. -/
def columnround (s : List Nat) : List Nat :=
  qr (qr (qr (qr s 0 4 8 12) 5 9 13 1) 10 14 2 6) 15 3 7 11

/-- Salsa20 row round. -/
def rowround (s : List Nat) : List Nat :=
  qr (qr (qr (qr s 0 1 2 3) 5 6 7 4) 10 11 8 9) 15 12 13 14

/-- One Salsa20 double round. -/
def doubleround (s : List Nat) : List Nat := rowround (columnround s)

/-- Iterated double rounds. -/
def saRounds : Nat → List Nat → List Nat
  | 0, s => s
  | n + 1, s => saRounds n (doubleround s)

/-- Little-endian 32-bit load at byte offset `i` (missing bytes read as 0,
as tweetnacl reads from fixed-size buffers). -/
def ld32 (b : Bytes) (i : Nat) : Nat :=
  b.getD i 0 + 256 * b.getD (i + 1) 0 + 65536 * b.getD (i + 2) 0 +
    16777216 * b.getD (i + 3) 0

/-- Little-endian 32-bit store. -/
def st32 (w : Nat) : Bytes :=
  [w % 256, w / 256 % 256, w / 65536 % 256, w / 16777216 % 256]

/-- Initial Salsa20 state: the `expand 32-byte k` constants interleaved with
the 32-byte key and the 16-byte input block. -/
def salsaInit (k inp : Bytes) : List Nat :=
  [1634760805, ld32 k 0, ld32 k 4, ld32 k 8, ld32 k 12,
   857760878, ld32 inp 0, ld32 inp 4, ld32 inp 8, ld32 inp 12,
   2036477234, ld32 k 16, ld32 k 20, ld32 k 24, ld32 k 28,
   1797285236]

/-- Salsa20 block function `core_salsa20`: 20 rounds plus the feed-forward addition, serialized
little-endian (64 bytes). -/
def salsa20Block (k inp : Bytes) : Bytes :=
  let x := salsaInit k inp
  let z := saRounds 10 x
  st32 ((z.getD 0 0 + x.getD 0 0) % M32) ++ st32 ((z.getD 1 0 + x.getD 1 0) % M32) ++
  st32 ((z.getD 2 0 + x.getD 2 0) % M32) ++ st32 ((z.getD 3 0 + x.getD 3 0) % M32) ++
  st32 ((z.getD 4 0 + x.getD 4 0) % M32) ++ st32 ((z.getD 5 0 + x.getD 5 0) % M32) ++
  st32 ((z.getD 6 0 + x.getD 6 0) % M32) ++ st32 ((z.getD 7 0 + x.getD 7 0) % M32) ++
  st32 ((z.getD 8 0 + x.getD 8 0) % M32) ++ st32 ((z.getD 9 0 + x.getD 9 0) % M32) ++
  st32 ((z.getD 10 0 + x.getD 10 0) % M32) ++ st32 ((z.getD 11 0 + x.getD 11 0) % M32) ++
  st32 ((z.getD 12 0 + x.getD 12 0) % M32) ++ st32 ((z.getD 13 0 + x.getD 13 0) % M32) ++
  st32 ((z.getD 14 0 + x.getD 14 0) % M32) ++ st32 ((z.getD 15 0 + x.getD 15 0) % M32)

/-- HSalsa20 `core_hsalsa20`: 20 rounds, output words 0, 5, 10, 15, 6, 7, 8, 9
without the feed-forward (32 bytes). -/
def hsalsa20 (k inp : Bytes) : Bytes :=
  let z := saRounds 10 (salsaInit k inp)
  st32 (z.getD 0 0) ++ st32 (z.getD 5 0) ++ st32 (z.getD 10 0) ++ st32 (z.getD 15 0) ++
  st32 (z.getD 6 0) ++ st32 (z.getD 7 0) ++ st32 (z.getD 8 0) ++ st32 (z.getD 9 0)

/-- Little-endian 64-bit store of the Salsa20 block counter. -/
def st64 (i : Nat) : Bytes :=
  [i % 256, i / 256 % 256, i / 65536 % 256, i / 16777216 % 256,
   i / 4294967296 % 256, i / 1099511627776 % 256,
   i / 281474976710656 % 256, i / 72057594037927936 % 256]

/-- XSalsa20 keystream of `len` bytes under key `k` and 24-byte nonce `n`:
HSalsa20 subkey from the first 16 nonce bytes, then Salsa20 blocks over the
last 8 nonce bytes and a little-endian block counter. -/
def streamXSalsa (k n : Bytes) (len : Nat) : Bytes :=
  let sub := hsalsa20 k (n.take 16)
  let n8 := (n.drop 16).take 8
  (((List.range ((len + 63) / 64)).map (fun i => salsa20Block sub (n8 ++ st64 i))).flatten).take len

/-! ### Poly1305 (tweetnacl `crypto_onetimeauth`) -/

/-- The Poly1305 prime 2^130 - 5. -/
def P1305 : Nat := 1361129467683753853853498429727072845819

/-- Clamp the Poly1305 `r` value. -/
def clampR (x : Nat) : Nat := x &&& 0x0ffffffc0ffffffc0ffffffc0fffffff

/-- Little-endian value of a byte string. -/
def leNum : Bytes → Nat
  | [] => 0
  | b :: bs => b + 256 * leNum bs

/-- Little-endian 16-byte store of a 128-bit value. -/
def leBytes16 (x : Nat) : Bytes := (List.range 16).map fun i => x / 256 ^ i % 256

/-- Poly1305 accumulator loop: each at-most-16-byte chunk, with its
high padding bit 2^(8·len), is added and multiplied by `r` modulo 2^130-5.
`fuel` bounds the recursion (one step consumes 16 message bytes). -/
def polyAux : Nat → Nat → Nat → Bytes → Nat
  | 0, acc, _, _ => acc
  | _ + 1, acc, _, [] => acc
  | f + 1, acc, r, msg =>
      polyAux f ((acc + leNum (msg.take 16) + 2 ^ (8 * min msg.length 16)) * r % P1305) r
        (msg.drop 16)

/-- Poly1305 one-time authenticator of `msg` under the 32-byte key
(`r` clamped from the first half, `s` the second half). -/
def poly1305 (msg key : Bytes) : Bytes :=
  let r := clampR (leNum (key.take 16))
  let s := leNum ((key.drop 16).take 16)
  leBytes16 ((polyAux (msg.length + 1) 0 r msg + s) % 340282366920938463463374607431768211456)

/-! ### Secretbox (`nacl.secretbox` = `nacl.box.after` over the shared key) -/

/-- Byte-wise XOR (`crypto_stream_xor`). -/
def xorBytes (a b : Bytes) : Bytes := List.zipWith Nat.xor a b

/-- Authenticated encryption `nacl.secretbox k n m`: Poly1305 tag (keyed by the first 32 keystream
bytes) over the ciphertext, followed by the ciphertext `m XOR keystream`. -/
def secretbox (k n m : Bytes) : Bytes :=
  let st := streamXSalsa k n (32 + m.length)
  let c := xorBytes m (st.drop 32)
  poly1305 c (st.take 32) ++ c

/-- Authenticated decryption `nacl.secretbox.open k n box`: fails (`none`) when the box is shorter
than the 16-byte tag or when the recomputed Poly1305 tag differs; otherwise
returns the XOR-decrypted plaintext. -/
def secretboxOpen (k n box : Bytes) : Option Bytes :=
  if box.length < 16 then none
  else
    let tag := box.take 16
    let c := box.drop 16
    let st := streamXSalsa k n (32 + c.length)
    if poly1305 c (st.take 32) = tag then
      some (xorBytes c (st.drop 32))
    else none

/-- The call `nacl.box.after(message, nonce, sharedKey)`. -/
def boxAfter (m n k : Bytes) : Bytes := secretbox k n m

/-- The call `nacl.box.open.after(box, nonce, sharedKey)`. -/
def boxOpenAfter (box n k : Bytes) : Option Bytes := secretboxOpen k n box

/-! ### Length lemmas and the secretbox roundtrip -/

theorem st32_length (w : Nat) : (st32 w).length = 4 := rfl

theorem salsa20Block_length (k inp : Bytes) : (salsa20Block k inp).length = 64 := by
  simp [salsa20Block, st32]

theorem streamXSalsa_length (k n : Bytes) (len : Nat) :
    (streamXSalsa k n len).length = len := by
  have hblocks :
      ((List.range ((len + 63) / 64)).map
          (fun i => salsa20Block (hsalsa20 k (n.take 16)) (((n.drop 16).take 8) ++ st64 i))).flatten.length
        = 64 * ((len + 63) / 64) := by
    rw [List.length_flatten]
    rw [List.map_map]
    have hmap :
        (List.range ((len + 63) / 64)).map
            (List.length ∘ fun i => salsa20Block (hsalsa20 k (n.take 16)) (((n.drop 16).take 8) ++ st64 i))
          = (List.range ((len + 63) / 64)).map (fun _ => 64) := by
    -- every Salsa20 block has 64 bytes
      refine List.map_congr_left ?_
      intro a _
      simp [Function.comp, salsa20Block_length]
    rw [hmap, List.map_const', List.sum_replicate, List.length_range, smul_eq_mul,
      Nat.mul_comm]
  have hge : len ≤ 64 * ((len + 63) / 64) := by
    have hmod : (len + 63) % 64 < 64 := Nat.mod_lt _ (by norm_num)
    have hdm : 64 * ((len + 63) / 64) + (len + 63) % 64 = len + 63 :=
      Nat.div_add_mod (len + 63) 64
    omega
  simp only [streamXSalsa]
  rw [List.length_take, hblocks]
  omega

theorem leBytes16_length (x : Nat) : (leBytes16 x).length = 16 := by
  simp [leBytes16]

theorem poly1305_length (msg key : Bytes) : (poly1305 msg key).length = 16 := by
  simp [poly1305, leBytes16_length]

theorem xorBytes_length (a b : Bytes) : (xorBytes a b).length = min a.length b.length := by
  simp [xorBytes]

theorem xorBytes_cancel (m ks : Bytes) (h : m.length ≤ ks.length) :
    xorBytes (xorBytes m ks) ks = m := by
  induction m generalizing ks with
  | nil => simp [xorBytes]
  | cons a m ih =>
      cases ks with
      | nil => simp at h
      | cons b ks =>
          have hlen : m.length ≤ ks.length := by simpa using h
          have ihm := ih ks hlen
          simp only [xorBytes, List.zipWith_cons_cons] at ihm ⊢
          rw [ihm]
          show ((a ^^^ b) ^^^ b) :: m = a :: m
          rw [Nat.xor_cancel_right]

/-- Roundtrip of the authenticated cipher: opening a box produced by
`secretbox` under the same key and nonce recovers the plaintext exactly. -/
theorem secretbox_roundtrip (k n m : Bytes) :
    secretboxOpen k n (secretbox k n m) = some m := by
  have hst : (streamXSalsa k n (32 + m.length)).length = 32 + m.length :=
    streamXSalsa_length k n (32 + m.length)
  have hcl : (xorBytes m ((streamXSalsa k n (32 + m.length)).drop 32)).length = m.length := by
    rw [xorBytes_length, List.length_drop, hst]
    omega
  have htagl :
      (poly1305 (xorBytes m ((streamXSalsa k n (32 + m.length)).drop 32))
        ((streamXSalsa k n (32 + m.length)).take 32)).length = 16 :=
    poly1305_length _ _
  simp only [secretbox, secretboxOpen]
  rw [List.length_append, htagl, hcl]
  rw [if_neg (by omega)]
  rw [List.take_left' htagl, List.drop_left' htagl, hcl]
  rw [if_pos rfl]
  congr 1
  exact xorBytes_cancel m _ (by rw [List.length_drop, hst]; omega)

/-! ### X25519 (tweetnacl `crypto_scalarmult`) and `nacl.box.before` -/

/-- The field prime 2^255 - 19. -/
def P25519 : Nat := 57896044618658097711785492504343953926634992332820282019728792003956564819949

/-- Field addition modulo 2^255 - 19. -/
def fAdd (a b : Nat) : Nat := (a + b) % P25519

/-- Field subtraction modulo 2^255 - 19. -/
def fSub (a b : Nat) : Nat := (a % P25519 + P25519 - b % P25519) % P25519

/-- Field multiplication modulo 2^255 - 19. -/
def fMul (a b : Nat) : Nat := a * b % P25519

/-- Binary modular exponentiation; `fuel` bounds the recursion (one bit of
the exponent per step). -/
def powModAux : Nat → Nat → Nat → Nat → Nat
  | 0, _, _, m => 1 % m
  | f + 1, b, e, m =>
      if e = 0 then 1 % m
      else
        let h := powModAux f (b * b % m) (e / 2) m
        if e % 2 = 1 then b * h % m else h

/-- Field inverse via Fermat (`inv25519`). -/
def fInv (a : Nat) : Nat := powModAux 256 (a % P25519) (P25519 - 2) P25519

/-- Scalar clamping: clear the 3 low bits, clear bit 255, set bit 254
(`z[0] &= 248; z[31] = (z[31] & 127) | 64`). -/
def clampScalar (sk : Bytes) : Nat :=
  let n := leNum (sk.take 32)
  (n - n % 8) % 2 ^ 254 + 2 ^ 254

/-- Point load `unpack25519`: little-endian load of the 32-byte point with the top bit
masked off. -/
def unpack25519 (pk : Bytes) : Nat := leNum (pk.take 32) % 2 ^ 255

/-- One Montgomery-ladder step of tweetnacl's `crypto_scalarmult`, on the
projective state `(a, b, c, d)` with conditional swap on scalar bit `r`. -/
def ladderStep (x : Nat) (st : Nat × Nat × Nat × Nat) (r : Nat) : Nat × Nat × Nat × Nat :=
  match st with
  | (a0, b0, c0, d0) =>
    let a := if r = 1 then b0 else a0
    let b := if r = 1 then a0 else b0
    let c := if r = 1 then d0 else c0
    let d := if r = 1 then c0 else d0
    let e := fAdd a c
    let a1 := fSub a c
    let c1 := fAdd b d
    let b1 := fSub b d
    let d1 := fMul e e
    let f := fMul a1 a1
    let a2 := fMul c1 a1
    let c2 := fMul b1 e
    let e2 := fAdd a2 c2
    let a3 := fSub a2 c2
    let b2 := fMul a3 a3
    let c3 := fSub d1 f
    let a4 := fAdd (fMul c3 121665) d1
    let c4 := fMul c3 a4
    let a5 := fMul d1 f
    let d2 := fMul b2 x
    let b3 := fMul e2 e2
    (if r = 1 then b3 else a5, if r = 1 then a5 else b3,
     if r = 1 then d2 else c4, if r = 1 then c4 else d2)

/-- Little-endian 32-byte store of a field element (`pack25519`; the input
is already reduced modulo the prime). -/
def pack25519 (n : Nat) : Bytes := (List.range 32).map fun i => n / 256 ^ i % 256

/-- Scalar multiplication `crypto_scalarmult(sk, pk)`: X25519 Diffie-Hellman over the clamped
scalar, bits 254 down to 0. -/
def scalarmult (sk pk : Bytes) : Bytes :=
  let z := clampScalar sk
  let x := unpack25519 pk
  let fin := ((List.range 255).reverse).foldl
    (fun st i => ladderStep x st ((z >>> i) &&& 1)) (1, x, 0, 1)
  match fin with
  | (a, _, c, _) => pack25519 (fMul a (fInv c))

/-- Key agreement `nacl.box.before(publicKey, secretKey)`, i.e. `crypto_box_beforenm`: the
shared symmetric key is HSalsa20 of the X25519 shared point with a zero
input block. -/
def boxBefore (pk sk : Bytes) : Bytes := hsalsa20 (scalarmult sk pk) (List.replicate 16 0)

/-! ### Association-list maps (JS `Map` / plain-object semantics) -/

/-- Remove every binding of key `k`. -/
def alDel {α : Type} : List (String × α) → String → List (String × α)
  | [], _ => []
  | (k', v) :: rest, k => if k' = k then alDel rest k else (k', v) :: alDel rest k

/-- JS `Map.prototype.set`: bind `k` to `v`, replacing any previous binding. -/
def alSet {α : Type} (l : List (String × α)) (k : String) (v : α) : List (String × α) :=
  (k, v) :: alDel l k

/-- JS `Map.prototype.get`. -/
def alGet {α : Type} : List (String × α) → String → Option α
  | [], _ => none
  | (k', v) :: rest, k => if k' = k then some v else alGet rest k

theorem alGet_del {α : Type} (l : List (String × α)) (k k' : String) :
    alGet (alDel l k) k' = if k' = k then none else alGet l k' := by
  induction l with
  | nil => simp [alDel, alGet]
  | cons p rest ih =>
      obtain ⟨k0, v0⟩ := p
      by_cases h0 : k0 = k
      · subst h0
        by_cases h1 : k' = k0
        · subst h1; simp [alDel, alGet, ih]
        · simp [alDel, alGet, h1, ih, Ne.symm h1]
      · by_cases h1 : k0 = k'
        · subst h1
          simp [alDel, alGet, h0, ih]
        · simp [alDel, alGet, h0, h1, ih]

theorem alGet_set_self {α : Type} (l : List (String × α)) (k : String) (v : α) :
    alGet (alSet l k v) k = some v := by
  simp [alSet, alGet]

theorem alGet_set_ne {α : Type} (l : List (String × α)) (k k' : String) (v : α)
    (h : k' ≠ k) : alGet (alSet l k v) k' = alGet l k' := by
  simp [alSet, alGet, h, Ne.symm h, alGet_del]

/-! ### `KeyStorage` and the message encryption service
(`src/lib/encryptionService.ts`)

Keys, nonces, ciphertexts and plaintexts are byte lists; the Base64/UTF-8
transcoding done by `tweetnacl-util` at the TypeScript boundaries is
external to the repository and not modelled.  The per-message nonce, drawn
by `nacl.randomBytes` in `encryptMessage`, is passed as an explicit
argument (randomness is an external source). -/

/-- A key pair as held by `KeyStorage` (decoded form). -/
structure KeyPair where
  publicKey : Bytes
  secretKey : Bytes
deriving DecidableEq

/-- The `KeyStorage` singleton's state. -/
structure KeyStorage where
  myKeyPair : Option KeyPair
  contactPublicKeys : List (String × Bytes)
  sharedSecrets : List (String × Bytes)
deriving DecidableEq

/-- An encrypted message `{ciphertext, nonce}`. -/
structure EncryptedMessage where
  ciphertext : Bytes
  nonce : Bytes
deriving DecidableEq

/-- Lookup `KeyStorage.getContactPublicKey`. -/
def KeyStorage.getContactPublicKey (st : KeyStorage) (userId : String) : Option Bytes :=
  alGet st.contactPublicKeys userId

/-- Lookup `KeyStorage.getSharedSecret`. -/
def KeyStorage.getSharedSecret (st : KeyStorage) (userId : String) : Option Bytes :=
  alGet st.sharedSecrets userId

/-- Derivation `KeyStorage.computeSharedSecret`: silently returns (leaving the secret
map untouched) when the contact key or own key pair is missing or when a
decoded key length differs from `nacl.box.publicKeyLength`/
`secretKeyLength` (32); on success caches `nacl.box.before` of the two
keys. -/
def KeyStorage.computeSharedSecret (st : KeyStorage) (userId : String) : KeyStorage :=
  match alGet st.contactPublicKeys userId, st.myKeyPair with
  | some pk, some kp =>
      if pk.length = 32 ∧ kp.secretKey.length = 32 then
        { st with sharedSecrets := alSet st.sharedSecrets userId (boxBefore pk kp.secretKey) }
      else st
  | _, _ => st

/-- Setter `KeyStorage.setContactPublicKey`: unconditionally caches the contact's
key, then attempts to (re)compute the shared secret. -/
def KeyStorage.setContactPublicKey (st : KeyStorage) (userId : String) (publicKey : Bytes) :
    KeyStorage :=
  KeyStorage.computeSharedSecret
    { st with contactPublicKeys := alSet st.contactPublicKeys userId publicKey } userId

/-- Operation `encryptionService.encryptMessage`: throws when no shared secret is
cached for the contact, otherwise authenticated-encrypts with
`nacl.box.after` under a fresh nonce.  The lazy `fetchContactPublicKey`
network round-trip taken when the contact key is absent is external I/O;
under the claims' preconditions the peer key and secret are already
cached, so that branch is not taken. -/
def encryptMessage (st : KeyStorage) (userId : String) (nonce message : Bytes) :
    Except String EncryptedMessage :=
  match st.getSharedSecret userId with
  | none => .error "No shared secret available for this contact"
  | some s => .ok ⟨boxAfter message nonce s, nonce⟩

/-- Operation `encryptionService.decryptMessage`: throws when no shared secret is
cached; throws `Failed to decrypt message` when `nacl.box.open.after`
rejects the box (null result); otherwise returns the plaintext. -/
def decryptMessage (st : KeyStorage) (userId : String) (em : EncryptedMessage) :
    Except String Bytes :=
  match st.getSharedSecret userId with
  | none => .error "No shared secret available for this contact"
  | some s =>
      match boxOpenAfter em.ciphertext em.nonce s with
      | none => .error "Failed to decrypt message"
      | some m => .ok m

/-! ### The socket server (`initSocketServer`)

`connectedUsers` is the in-memory `Map<string, string[]>` of user id to
socket ids; the Redis keys `user:{id}:online`, `user:{id}:last_seen` and
`user:{id}:pending_messages` are modelled as association lists in the same
state record.  Timestamps (`new Date()`) are abstract `Nat` instants
supplied per event.  `expire` TTLs are recorded as data; the real-time
lapse of a TTL inside Redis is not modelled.  A pending-queue entry is the
structured value of the JSON string the handler pushes: a one-element
array wrapping the message object. -/

/-- A `message:receive` payload object as built by the `message:send`
handler (`senderId` is taken from the authenticated socket). -/
structure Envelope where
  senderId : String
  message : String
  conversationId : String
  timestamp : Nat
deriving DecidableEq

/-- The client payload of a `message:send` event.  It carries no sender
identity field: the handler destructures only these three fields. -/
structure SendData where
  recipientId : String
  message : String
  conversationId : String
deriving DecidableEq

/-- Delivery-state value carried by a `message:status` emission. -/
inductive StatusKind
  | delivered
  | read
deriving DecidableEq

/-- One socket emission performed by the server handlers. -/
inductive Emit where
  /-- Live delivery `io.to(socketId).emit('message:receive', envelope)`. -/
  | receive (socketId : String) (e : Envelope)
  /-- Drained pending entry `socket.emit('message:receive', JSON.parse(entry))`;
  the payload is the parsed one-element array, not a bare object. -/
  | receivePending (payload : List Envelope)
  /-- Relay `io.to(socketId).emit('typing:start', {senderId, conversationId})`. -/
  | typingStart (socketId senderId conversationId : String)
  /-- Relay `io.to(socketId).emit('typing:stop', {senderId, conversationId})`. -/
  | typingStop (socketId senderId conversationId : String)
  /-- Ack `io.to(socketId).emit('message:status', {messageId, status, timestamp})`. -/
  | status (socketId messageId : String) (s : StatusKind) (timestamp : Nat)
  /-- Broadcast `socket.broadcast.emit('user:online', {userId})`. -/
  | broadcastOnline (userId : String)
  /-- Broadcast `socket.broadcast.emit('user:offline', {userId})`. -/
  | broadcastOffline (userId : String)
deriving DecidableEq

/-- Server state: the `connectedUsers` map plus the Redis keys the
handlers touch. -/
structure ServerState where
  connectedUsers : List (String × List String)
  onlineFlag : List (String × String)
  onlineTTL : List (String × Nat)
  lastSeen : List (String × Nat)
  pending : List (String × List (List Envelope))
  pendingTTL : List (String × Nat)
deriving DecidableEq

/-- The state before any connection. -/
def ServerState.empty : ServerState := ⟨[], [], [], [], [], []⟩

/-- The connection handler up to the event registrations: add the socket id
to the user's entry (push, or a fresh singleton), `redis.set` the online
flag to `"true"` (a Redis SET discards any previous TTL), `redis.expire` it
to 3600 s, and broadcast `user:online` to everyone else. -/
def registerConnection (st : ServerState) (userId socketId : String) :
    ServerState × List Emit :=
  let newConnected :=
    match alGet st.connectedUsers userId with
    | some sids => alSet st.connectedUsers userId (sids ++ [socketId])
    | none => alSet st.connectedUsers userId [socketId]
  ({ st with
      connectedUsers := newConnected,
      onlineFlag := alSet st.onlineFlag userId "true",
      onlineTTL := alSet st.onlineTTL userId 3600 },
   [Emit.broadcastOnline userId])

/-- The async pending-message block run on connection: `lrange 0 -1` the
pending list, emit each parsed entry to this socket in list order, then
`del` the key.  When the list is empty or absent nothing happens and the
key is not deleted. -/
def drainPending (st : ServerState) (userId : String) : ServerState × List Emit :=
  let msgs := (alGet st.pending userId).getD []
  if msgs.isEmpty then (st, [])
  else
    ({ st with
        pending := alDel st.pending userId,
        pendingTTL := alDel st.pendingTTL userId },
     msgs.map Emit.receivePending)

/-- The whole `connection` handler effect at open: registration followed by
the pending drain. -/
def handleConnection (st : ServerState) (userId socketId : String) :
    ServerState × List Emit :=
  let r := registerConnection st userId socketId
  let d := drainPending r.1 userId
  (d.1, r.2 ++ d.2)

/-- The `message:send` handler: fan the envelope out to every socket of the
recipient; when the recipient has no socket, `lpush` (prepend) a one-element
JSON array holding the envelope onto the recipient's pending list and set
its TTL to 604800 s (7 days). -/
def handleMessageSend (st : ServerState) (authUserId : String) (data : SendData)
    (now : Nat) : ServerState × List Emit :=
  let recipientSocketIds := (alGet st.connectedUsers data.recipientId).getD []
  let env : Envelope := ⟨authUserId, data.message, data.conversationId, now⟩
  let emits := recipientSocketIds.map fun socketId => Emit.receive socketId env
  if recipientSocketIds.isEmpty then
    ({ st with
        pending := alSet st.pending data.recipientId
          ([env] :: (alGet st.pending data.recipientId).getD []),
        pendingTTL := alSet st.pendingTTL data.recipientId 604800 },
     emits)
  else (st, emits)

/-- The `typing:start` handler: stateless fan-out to the recipient's
sockets. -/
def handleTypingStart (st : ServerState) (authUserId : String)
    (recipientId conversationId : String) : ServerState × List Emit :=
  (st, ((alGet st.connectedUsers recipientId).getD []).map
    fun socketId => Emit.typingStart socketId authUserId conversationId)

/-- The `typing:stop` handler. -/
def handleTypingStop (st : ServerState) (authUserId : String)
    (recipientId conversationId : String) : ServerState × List Emit :=
  (st, ((alGet st.connectedUsers recipientId).getD []).map
    fun socketId => Emit.typingStop socketId authUserId conversationId)

/-- The `message:delivered` handler: no state is read or written for the
envelope id; a `message:status {status: delivered}` is forwarded to every
socket of the claimed sender. -/
def handleDelivered (st : ServerState) (messageId senderId : String) (now : Nat) :
    ServerState × List Emit :=
  (st, ((alGet st.connectedUsers senderId).getD []).map
    fun socketId => Emit.status socketId messageId StatusKind.delivered now)

/-- The `message:read` handler: same shape with `status: read`. -/
def handleRead (st : ServerState) (messageId senderId : String) (now : Nat) :
    ServerState × List Emit :=
  (st, ((alGet st.connectedUsers senderId).getD []).map
    fun socketId => Emit.status socketId messageId StatusKind.read now)

/-- The `disconnect` handler: filter this socket id out of the user's
entry; when sockets remain, store the filtered list; when none remain,
delete the entry, set the online flag to `"false"` (discarding its TTL),
stamp `last_seen` with the current instant and broadcast `user:offline`. -/
def handleDisconnect (st : ServerState) (userId socketId : String) (now : Nat) :
    ServerState × List Emit :=
  let userSocketIds := (alGet st.connectedUsers userId).getD []
  let updated := userSocketIds.filter fun sid => sid ≠ socketId
  if updated.isEmpty then
    ({ st with
        connectedUsers := alDel st.connectedUsers userId,
        onlineFlag := alSet st.onlineFlag userId "false",
        onlineTTL := alDel st.onlineTTL userId,
        lastSeen := alSet st.lastSeen userId now },
     [Emit.broadcastOffline userId])
  else
    ({ st with connectedUsers := alSet st.connectedUsers userId updated }, [])

/-- One inbound server event, used to range over reachable states. -/
inductive SEvent
  | connect (userId socketId : String)
  | disconnect (userId socketId : String) (now : Nat)
  | msgSend (authUserId : String) (data : SendData) (now : Nat)
  | msgDelivered (authUserId messageId senderId : String) (now : Nat)
  | msgRead (authUserId messageId senderId : String) (now : Nat)
  | typingStart (authUserId recipientId conversationId : String)
  | typingStop (authUserId recipientId conversationId : String)
deriving DecidableEq

/-- Dispatch of one event to its handler. -/
def stepEvent (st : ServerState) : SEvent → ServerState × List Emit
  | SEvent.connect u sid => handleConnection st u sid
  | SEvent.disconnect u sid t => handleDisconnect st u sid t
  | SEvent.msgSend u d t => handleMessageSend st u d t
  | SEvent.msgDelivered _u mid sdr t => handleDelivered st mid sdr t
  | SEvent.msgRead _u mid sdr t => handleRead st mid sdr t
  | SEvent.typingStart u r c => handleTypingStart st u r c
  | SEvent.typingStop u r c => handleTypingStop st u r c

/-- Run a list of events from a state, accumulating the emissions. -/
def runEvents (st : ServerState) : List SEvent → ServerState × List Emit
  | [] => (st, [])
  | ev :: evs =>
      let r := stepEvent st ev
      let rest := runEvents r.1 evs
      (rest.1, r.2 ++ rest.2)

/-! ### Conversation ids (messages REST route, POST and GET)

`const ids = [user.userId, recipientId].sort(); const conversationId =
ids.join('_');` — JavaScript's default `Array.prototype.sort` compares the
two strings, so the pair is arranged in ascending lexicographic order and
joined with an underscore. -/

/-- The conversation id computed by the messages route. -/
def conversationId (a b : String) : String :=
  if b < a then b ++ "_" ++ a else a ++ "_" ++ b

/-! ### Concrete stores used by witnesses and counterexamples -/

/-- A `KeyStorage` with a cached shared secret for contact `peer`. -/
def demoStore : KeyStorage :=
  ⟨none, [("peer", List.replicate 32 1)], [("peer", List.replicate 32 7)]⟩

/-- The shared secret `demoStore` caches for `peer`. -/
def demoSecret : Bytes := List.replicate 32 7

/-- A demo 24-byte nonce. -/
def demoNonce : Bytes := List.replicate 24 3

/-- A `KeyStorage` holding only an own key pair. -/
def c7Store : KeyStorage :=
  ⟨some ⟨List.replicate 32 9, List.replicate 32 5⟩, [], []⟩

/-- A server state with one open socket each for users `a` and `b`. -/
def liveState : ServerState := ⟨[("a", ["sa"]), ("b", ["sb"])], [], [], [], [], []⟩

/-- The pending drain never touches the presence fields. -/
theorem drainPending_presence (st : ServerState) (u : String) :
    (drainPending st u).1.connectedUsers = st.connectedUsers ∧
    (drainPending st u).1.onlineFlag = st.onlineFlag ∧
    (drainPending st u).1.lastSeen = st.lastSeen := by
  unfold drainPending
  by_cases h : ((alGet st.pending u).getD []).isEmpty <;> simp [h]

/-- What the connection handler does to the presence fields. -/
theorem handleConnection_presence (st : ServerState) (u sid : String) :
    (handleConnection st u sid).1.connectedUsers =
      (match alGet st.connectedUsers u with
       | some sids => alSet st.connectedUsers u (sids ++ [sid])
       | none => alSet st.connectedUsers u [sid]) ∧
    (handleConnection st u sid).1.onlineFlag = alSet st.onlineFlag u "true" ∧
    (handleConnection st u sid).1.lastSeen = st.lastSeen := by
  have hd := drainPending_presence (registerConnection st u sid).1 u
  simp only [handleConnection]
  exact ⟨hd.1.trans (by rfl), hd.2.1.trans (by rfl), hd.2.2.trans (by rfl)⟩

/-! ### Claim theorems -/

/-- C1: for every plaintext `message` and every shared secret `s` cached
for a peer, encrypting with `encryptMessage` and decrypting the resulting
`{ciphertext, nonce}` with `decryptMessage` under the same stored secret
returns exactly the original plaintext. -/
theorem encrypt_then_decrypt_roundtrip (st : KeyStorage) (userId : String)
    (s nonce message : Bytes) (hs : st.getSharedSecret userId = some s)
    (em : EncryptedMessage)
    (henc : encryptMessage st userId nonce message = Except.ok em) :
    decryptMessage st userId em = Except.ok message := by
  have hem : em = ⟨boxAfter message nonce s, nonce⟩ := by
    simp [encryptMessage, hs] at henc
    exact henc.symm
  subst hem
  simp [decryptMessage, hs, boxOpenAfter, boxAfter, secretbox_roundtrip]

/-- Witness for C1 at a concrete store, secret, nonce and plaintext. -/
theorem encrypt_then_decrypt_roundtrip_witness :
    demoStore.getSharedSecret "peer" = some demoSecret ∧
    encryptMessage demoStore "peer" demoNonce [104, 105] =
      Except.ok ⟨boxAfter [104, 105] demoNonce demoSecret, demoNonce⟩ ∧
    decryptMessage demoStore "peer" ⟨boxAfter [104, 105] demoNonce demoSecret, demoNonce⟩ =
      Except.ok [104, 105] := by
  have hs : demoStore.getSharedSecret "peer" = some demoSecret := by decide
  have henc : encryptMessage demoStore "peer" demoNonce [104, 105] =
      Except.ok ⟨boxAfter [104, 105] demoNonce demoSecret, demoNonce⟩ := by
    simp [encryptMessage, hs]
  exact ⟨hs, henc,
    encrypt_then_decrypt_roundtrip demoStore "peer" demoSecret demoNonce [104, 105] hs _ henc⟩

/-- C2 is false as universally stated: mutating the genuine box of `[1]`
into the byte string that is the box of `[2]` under the same secret and
nonce yields a different `(ciphertext, nonce)` pair on which
`decryptMessage` does not fail — it returns the plaintext `[2]`, which is
not the original `[1]`. -/
theorem decrypt_tampered_counterexample :
    (boxAfter [2] demoNonce demoSecret, demoNonce) ≠
      (boxAfter [1] demoNonce demoSecret, demoNonce) ∧
    decryptMessage demoStore "peer" ⟨boxAfter [2] demoNonce demoSecret, demoNonce⟩ =
      Except.ok [2] ∧
    ([2] : Bytes) ≠ [1] := by
  refine ⟨?_, ?_, by decide⟩
  · intro h
    have hc : boxAfter [2] demoNonce demoSecret = boxAfter [1] demoNonce demoSecret :=
      congrArg Prod.fst h
    have h1 := secretbox_roundtrip demoSecret demoNonce [1]
    have h2 := secretbox_roundtrip demoSecret demoNonce [2]
    unfold boxAfter at hc
    rw [hc, h1] at h2
    simp at h2
  · have hs : demoStore.getSharedSecret "peer" = some demoSecret := by decide
    simp [decryptMessage, hs, boxOpenAfter, boxAfter, secretbox_roundtrip]

/-- C2 (amended): `decryptMessage` fails with the decryption error — and
never returns any (partial) plaintext — on every `(ciphertext, nonce)` pair
whose Poly1305 tag does not verify under the stored shared secret (which is
what a mutation breaks except when it re-authenticates, something only a
holder of the secret can arrange); absolute rejection of every mutation is
a computational property of the MAC, not an unconditional one. -/
theorem decrypt_fails_without_valid_tag (st : KeyStorage) (userId : String)
    (s : Bytes) (em : EncryptedMessage) (hs : st.getSharedSecret userId = some s)
    (hbad : em.ciphertext.length < 16 ∨
      poly1305 (em.ciphertext.drop 16)
          ((streamXSalsa s em.nonce (32 + (em.ciphertext.drop 16).length)).take 32) ≠
        em.ciphertext.take 16) :
    decryptMessage st userId em = Except.error "Failed to decrypt message" := by
  have hopen : boxOpenAfter em.ciphertext em.nonce s = none := by
    simp only [boxOpenAfter, secretboxOpen]
    rcases hbad with h | h
    · rw [if_pos h]
    · by_cases hlen : em.ciphertext.length < 16
      · rw [if_pos hlen]
      · rw [if_neg hlen, if_neg h]
  simp [decryptMessage, hs, hopen]

/-- Witness for the amended C2: a 3-byte box is shorter than the tag, so
decryption under the cached secret fails with the decryption error. -/
theorem decrypt_fails_without_valid_tag_witness :
    demoStore.getSharedSecret "peer" = some demoSecret ∧
    ([1, 2, 3] : Bytes).length < 16 ∧
    decryptMessage demoStore "peer" ⟨[1, 2, 3], demoNonce⟩ =
      Except.error "Failed to decrypt message" := by
  have hs : demoStore.getSharedSecret "peer" = some demoSecret := by decide
  exact ⟨hs, by decide,
    decrypt_fails_without_valid_tag demoStore "peer" demoSecret ⟨[1, 2, 3], demoNonce⟩ hs
      (Or.inl (by decide))⟩

/-- C6: the conversation id computed when `a` messages `b` equals the one
computed when `b` messages `a` — the sorted-pair join is symmetric. -/
theorem conversationId_comm (a b : String) : conversationId a b = conversationId b a := by
  unfold conversationId
  rcases lt_trichotomy a b with h | h | h
  · rw [if_neg (asymm h), if_pos h]
  · subst h; rfl
  · rw [if_pos h, if_neg (asymm h)]

/-- C7 is false as stated: storing a peer key whose length differs from
the curve's 32-byte public-key size raises no error (the setter is total
and returns normally), and the malformed key IS cached — a subsequent
lookup returns it.  Only the final clause of the claim holds: no shared
secret is derived from it. -/
theorem store_short_key_counterexample :
    ((c7Store.setContactPublicKey "peer" [1, 2, 3]).getContactPublicKey "peer" =
      some [1, 2, 3]) ∧
    (c7Store.setContactPublicKey "peer" [1, 2, 3]).getSharedSecret "peer" = none := by
  decide

/-- C7 (amended): storing a peer key whose length differs from 32 is not
rejected with an error — `setContactPublicKey` caches it and a subsequent
lookup returns the malformed key — but no shared secret is derived or
stored from it (the secret cache is left exactly as it was). -/
theorem store_invalid_key_cached_but_no_secret (st : KeyStorage) (userId : String)
    (pk : Bytes) (h : pk.length ≠ 32) :
    (st.setContactPublicKey userId pk).getContactPublicKey userId = some pk ∧
    (st.setContactPublicKey userId pk).sharedSecrets = st.sharedSecrets := by
  unfold KeyStorage.setContactPublicKey KeyStorage.computeSharedSecret
  rcases hk : st.myKeyPair with _ | kp
  · simp [KeyStorage.getContactPublicKey, alGet_set_self, hk]
  · simp [KeyStorage.getContactPublicKey, alGet_set_self, hk, h]

/-- Witness for the amended C7 at a concrete store and 3-byte key. -/
theorem store_invalid_key_cached_but_no_secret_witness :
    ([1, 2, 3] : Bytes).length ≠ 32 ∧
    (c7Store.setContactPublicKey "u2" [1, 2, 3]).getContactPublicKey "u2" =
      some [1, 2, 3] ∧
    (c7Store.setContactPublicKey "u2" [1, 2, 3]).sharedSecrets = c7Store.sharedSecrets := by
  have h := store_invalid_key_cached_but_no_secret c7Store "u2" [1, 2, 3] (by decide)
  exact ⟨by decide, h.1, h.2⟩

/-- C5: one `message:send` either fans out or enqueues, never both: the
emissions are exactly one `message:receive` per open recipient socket
(so none at all when the recipient is offline); the recipient's pending
queue and its TTL gain the new entry exactly when the recipient has no
open socket, and are untouched otherwise; the connection map, online flags
and last-seen stamps are never touched. -/
theorem route_fanout_xor_enqueue (st : ServerState) (authUserId : String)
    (data : SendData) (now : Nat) :
    (handleMessageSend st authUserId data now).2 =
      ((alGet st.connectedUsers data.recipientId).getD []).map
        (fun socketId =>
          Emit.receive socketId ⟨authUserId, data.message, data.conversationId, now⟩) ∧
    alGet (handleMessageSend st authUserId data now).1.pending data.recipientId =
      (if ((alGet st.connectedUsers data.recipientId).getD []).isEmpty then
        some ([(⟨authUserId, data.message, data.conversationId, now⟩ : Envelope)] ::
          (alGet st.pending data.recipientId).getD [])
      else alGet st.pending data.recipientId) ∧
    alGet (handleMessageSend st authUserId data now).1.pendingTTL data.recipientId =
      (if ((alGet st.connectedUsers data.recipientId).getD []).isEmpty then some 604800
       else alGet st.pendingTTL data.recipientId) ∧
    (handleMessageSend st authUserId data now).1.connectedUsers = st.connectedUsers ∧
    (handleMessageSend st authUserId data now).1.onlineFlag = st.onlineFlag ∧
    (handleMessageSend st authUserId data now).1.lastSeen = st.lastSeen := by
  unfold handleMessageSend
  by_cases h : ((alGet st.connectedUsers data.recipientId).getD []).isEmpty <;>
    simp [h, alGet_set_self]

/-- C10: every live `message:receive` emission produced by the
`message:send` handler carries as `senderId` the authenticated user id of
the emitting connection (the client payload has no sender field at all),
so a sender cannot spoof another user's identity. -/
theorem live_delivery_sender_is_authenticated (st : ServerState) (authUserId : String)
    (data : SendData) (now : Nat) (e : Emit)
    (he : e ∈ (handleMessageSend st authUserId data now).2) :
    ∃ socketId,
      e = Emit.receive socketId ⟨authUserId, data.message, data.conversationId, now⟩ := by
  unfold handleMessageSend at he
  by_cases h : ((alGet st.connectedUsers data.recipientId).getD []).isEmpty <;>
    · simp [h] at he
      obtain ⟨sid, _, rfl⟩ := he
      exact ⟨sid, rfl⟩

/-- Witness for C10: concrete send by `a` to connected `b`. -/
theorem live_delivery_sender_is_authenticated_witness :
    Emit.receive "sb" ⟨"a", "hi", "conv", 5⟩ ∈
      (handleMessageSend liveState "a" ⟨"b", "hi", "conv"⟩ 5).2 ∧
    ∃ socketId, Emit.receive "sb" (⟨"a", "hi", "conv", 5⟩ : Envelope) =
      Emit.receive socketId ⟨"a", "hi", "conv", 5⟩ := by
  refine ⟨by decide, ?_⟩
  exact live_delivery_sender_is_authenticated liveState "a" ⟨"b", "hi", "conv"⟩ 5 _ (by decide)

/-- C4 is false as stated: the server keeps no per-envelope delivery
state.  A `message:read` ack for id `m1` leaves the state untouched, and a
later `message:delivered` for the same id still emits a
`status: delivered` — a regression past Read — to the sender's
connection. -/
theorem delivered_after_read_counterexample :
    (handleRead liveState "m1" "a" 1).1 = liveState ∧
    (handleRead liveState "m1" "a" 1).2 = [Emit.status "sa" "m1" StatusKind.read 1] ∧
    (handleDelivered (handleRead liveState "m1" "a" 1).1 "m1" "a" 2).2 =
      [Emit.status "sa" "m1" StatusKind.delivered 2] := by
  decide

/-- C4 (amended): the server stores no per-envelope delivery state — the
read and delivered handlers never modify the state — and
`message:delivered` unconditionally forwards a `delivered` status to every
socket of the named sender, even right after a `message:read` for the very
same envelope id was processed. -/
theorem ack_handlers_stateless_and_unconditional (st : ServerState)
    (messageId senderId : String) (t t' : Nat) :
    (handleRead st messageId senderId t').1 = st ∧
    (handleDelivered st messageId senderId t).1 = st ∧
    (handleDelivered (handleRead st messageId senderId t').1 messageId senderId t).2 =
      ((alGet st.connectedUsers senderId).getD []).map
        (fun socketId => Emit.status socketId messageId StatusKind.delivered t) := by
  simp [handleRead, handleDelivered]

/-- C9 is false as stated: user `a` already has an open handle, yet
registering a second connection still broadcasts `user:online`. -/
theorem online_broadcast_on_additional_handle_counterexample :
    (alGet liveState.connectedUsers "a").getD [] ≠ [] ∧
    Emit.broadcastOnline "a" ∈ (handleConnection liveState "a" "sa2").2 := by
  decide

/-- C9 (amended): the `user:online` broadcast is emitted on every
connection registration, whether or not the user already had an open
handle — not only on the empty-to-non-empty transition. -/
theorem online_broadcast_on_every_register (st : ServerState) (userId socketId : String) :
    (registerConnection st userId socketId).2 = [Emit.broadcastOnline userId] ∧
    Emit.broadcastOnline userId ∈ (handleConnection st userId socketId).2 := by
  refine ⟨rfl, ?_⟩
  simp [handleConnection, registerConnection]

/-- C3 is false as stated: the handler `lpush`es each offline envelope, and
the drain walks the Redis list front to back, so three messages enqueued
as `m1, m2, m3` are delivered newest-first (`m3, m2, m1`), not FIFO — and
each drained payload is the parsed one-element array wrapping the
envelope, not the bare envelope object. -/
theorem offline_drain_order_counterexample :
    (drainPending
        (handleMessageSend
          (handleMessageSend
            (handleMessageSend ServerState.empty "a" ⟨"b", "m1", "conv"⟩ 1).1
            "a" ⟨"b", "m2", "conv"⟩ 2).1
          "a" ⟨"b", "m3", "conv"⟩ 3).1 "b").2 =
      [Emit.receivePending [⟨"a", "m3", "conv", 3⟩],
       Emit.receivePending [⟨"a", "m2", "conv", 2⟩],
       Emit.receivePending [⟨"a", "m1", "conv", 1⟩]] ∧
    (⟨"a", "m3", "conv", 3⟩ : Envelope) ≠ ⟨"a", "m1", "conv", 1⟩ := by
  decide

/-- Sending via `message:send` to an offline recipient only prepends the pending entry
and stamps the TTL; nothing is emitted. -/
theorem handleMessageSend_offline (st : ServerState) (u : String) (d : SendData)
    (t : Nat) (hoff : alGet st.connectedUsers d.recipientId = none) :
    (handleMessageSend st u d t).1 =
      { st with
          pending := alSet st.pending d.recipientId
            ([(⟨u, d.message, d.conversationId, t⟩ : Envelope)] ::
              (alGet st.pending d.recipientId).getD []),
          pendingTTL := alSet st.pendingTTL d.recipientId 604800 } ∧
    (handleMessageSend st u d t).2 = [] := by
  simp [handleMessageSend, hoff]

/-- Draining an absent pending key does nothing. -/
theorem drainPending_of_none (st : ServerState) (u : String)
    (h : alGet st.pending u = none) : drainPending st u = (st, []) := by
  simp [drainPending, h]

/-- C3 (amended): three envelopes enqueued for an offline recipient are
drained newest-first (`e3, e2, e1` — LIFO, because the handler `lpush`es
and the drain reads the list front to back), each delivered payload being
the parsed one-element array that wraps the enqueued envelope; the drain
clears the key, and a second drain emits nothing. -/
theorem offline_queue_drains_lifo_then_empty (st : ServerState)
    (a b m1 m2 m3 cv1 cv2 cv3 : String) (t1 t2 t3 : Nat)
    (st1 st2 st3 : ServerState)
    (hoff : alGet st.connectedUsers b = none)
    (hq : alGet st.pending b = none)
    (h1 : st1 = (handleMessageSend st a ⟨b, m1, cv1⟩ t1).1)
    (h2 : st2 = (handleMessageSend st1 a ⟨b, m2, cv2⟩ t2).1)
    (h3 : st3 = (handleMessageSend st2 a ⟨b, m3, cv3⟩ t3).1) :
    (drainPending st3 b).2 =
      [Emit.receivePending [⟨a, m3, cv3, t3⟩],
       Emit.receivePending [⟨a, m2, cv2, t2⟩],
       Emit.receivePending [⟨a, m1, cv1, t1⟩]] ∧
    alGet (drainPending st3 b).1.pending b = none ∧
    (drainPending (drainPending st3 b).1 b).2 = [] := by
  obtain ⟨e1, -⟩ := handleMessageSend_offline st a ⟨b, m1, cv1⟩ t1 hoff
  rw [e1] at h1
  have hoff1 : alGet st1.connectedUsers b = none := by rw [h1]; exact hoff
  obtain ⟨e2, -⟩ := handleMessageSend_offline st1 a ⟨b, m2, cv2⟩ t2 hoff1
  rw [e2] at h2
  have hoff2 : alGet st2.connectedUsers b = none := by rw [h2, h1]; exact hoff
  obtain ⟨e3, -⟩ := handleMessageSend_offline st2 a ⟨b, m3, cv3⟩ t3 hoff2
  rw [e3] at h3
  have hp1 : alGet st1.pending b = some [[(⟨a, m1, cv1, t1⟩ : Envelope)]] := by
    rw [h1]; simp [hq, alGet_set_self]
  have hp2 : alGet st2.pending b =
      some [[(⟨a, m2, cv2, t2⟩ : Envelope)], [⟨a, m1, cv1, t1⟩]] := by
    rw [h2]; simp [hp1, alGet_set_self]
  have hp3 : alGet st3.pending b =
      some [[(⟨a, m3, cv3, t3⟩ : Envelope)], [⟨a, m2, cv2, t2⟩], [⟨a, m1, cv1, t1⟩]] := by
    rw [h3]; simp [hp2, alGet_set_self]
  have hd : (drainPending st3 b).1.pending = alDel st3.pending b := by
    simp [drainPending, hp3]
  have hnone2 : alGet (drainPending st3 b).1.pending b = none := by
    rw [hd, alGet_del]; simp
  refine ⟨by simp [drainPending, hp3], hnone2, ?_⟩
  have hdrain2 := drainPending_of_none (drainPending st3 b).1 b hnone2
  rw [hdrain2]

/-- Witness for the amended C3 at concrete users, messages and times. -/
theorem offline_queue_drains_lifo_then_empty_witness :
    alGet ServerState.empty.connectedUsers "b" = none ∧
    alGet ServerState.empty.pending "b" = none ∧
    ((drainPending
        (handleMessageSend
          (handleMessageSend
            (handleMessageSend ServerState.empty "a" ⟨"b", "m1", "cv"⟩ 1).1
            "a" ⟨"b", "m2", "cv"⟩ 2).1
          "a" ⟨"b", "m3", "cv"⟩ 3).1 "b").2 =
      [Emit.receivePending [⟨"a", "m3", "cv", 3⟩],
       Emit.receivePending [⟨"a", "m2", "cv", 2⟩],
       Emit.receivePending [⟨"a", "m1", "cv", 1⟩]] ∧
    alGet (drainPending
        (handleMessageSend
          (handleMessageSend
            (handleMessageSend ServerState.empty "a" ⟨"b", "m1", "cv"⟩ 1).1
            "a" ⟨"b", "m2", "cv"⟩ 2).1
          "a" ⟨"b", "m3", "cv"⟩ 3).1 "b").1.pending "b" = none ∧
    (drainPending (drainPending
        (handleMessageSend
          (handleMessageSend
            (handleMessageSend ServerState.empty "a" ⟨"b", "m1", "cv"⟩ 1).1
            "a" ⟨"b", "m2", "cv"⟩ 2).1
          "a" ⟨"b", "m3", "cv"⟩ 3).1 "b").1 "b").2 = []) := by
  refine ⟨by decide, by decide, ?_⟩
  exact offline_queue_drains_lifo_then_empty ServerState.empty "a" "b" "m1" "m2" "m3"
    "cv" "cv" "cv" 1 2 3 _ _ _ (by decide) (by decide) rfl rfl rfl

/-! ### Presence invariants (C8) -/

/-- The presence invariant: the Redis online flag reads `"true"` exactly
for the users with a non-empty socket set. -/
def PresenceInv (st : ServerState) : Prop :=
  ∀ u, alGet st.onlineFlag u = some "true" ↔ (alGet st.connectedUsers u).getD [] ≠ []

/-- Handler `message:send` never touches presence fields. -/
theorem handleMessageSend_presence (st : ServerState) (u : String) (d : SendData)
    (t : Nat) :
    (handleMessageSend st u d t).1.connectedUsers = st.connectedUsers ∧
    (handleMessageSend st u d t).1.onlineFlag = st.onlineFlag ∧
    (handleMessageSend st u d t).1.lastSeen = st.lastSeen := by
  unfold handleMessageSend
  by_cases h : ((alGet st.connectedUsers d.recipientId).getD []).isEmpty <;> simp [h]

theorem presenceInv_empty : PresenceInv ServerState.empty := by
  intro u
  simp [ServerState.empty, alGet]

theorem presenceInv_step (st : ServerState) (ev : SEvent) (h : PresenceInv st) :
    PresenceInv (stepEvent st ev).1 := by
  cases ev with
  | connect u sid =>
      intro v
      obtain ⟨hc, hf, -⟩ := handleConnection_presence st u sid
      simp only [stepEvent, hc, hf]
      by_cases hv : v = u
      · subst hv
        rcases hcc : alGet st.connectedUsers v with _ | sids <;>
          simp [hcc, alGet_set_self]
      · rcases hcc : alGet st.connectedUsers u with _ | sids <;>
          simp [hcc, alGet_set_ne _ _ _ _ hv, h v]
  | disconnect u sid t =>
      intro v
      simp only [stepEvent, handleDisconnect]
      by_cases hemp :
          ((((alGet st.connectedUsers u).getD []).filter (fun x => x ≠ sid)).isEmpty = true)
      · rw [if_pos hemp]
        by_cases hv : v = u
        · subst hv
          simp [alGet_set_self, alGet_del]
        · simp [alGet_set_ne _ _ _ _ hv, alGet_del, hv, h v]
      · rw [if_neg hemp]
        have hfilne : ((alGet st.connectedUsers u).getD []).filter (fun x => x ≠ sid) ≠ [] := by
          simpa [List.isEmpty_iff] using hemp
        by_cases hv : v = u
        · subst hv
          have hold : (alGet st.connectedUsers v).getD [] ≠ [] := by
            intro hh
            rw [hh] at hfilne
            simp at hfilne
          refine iff_of_true ((h v).2 hold) ?_
          simpa [alGet_set_self] using hfilne
        · simp [alGet_set_ne _ _ _ _ hv, h v]
  | msgSend u d t =>
      intro v
      obtain ⟨hc, hf, -⟩ := handleMessageSend_presence st u d t
      simp only [stepEvent, hc, hf]
      exact h v
  | msgDelivered u mid sdr t => exact h
  | msgRead u mid sdr t => exact h
  | typingStart u r c => exact h
  | typingStop u r c => exact h

theorem presenceInv_run (st : ServerState) (evs : List SEvent) (h : PresenceInv st) :
    PresenceInv (runEvents st evs).1 := by
  induction evs generalizing st with
  | nil => exact h
  | cons ev evs ih =>
      simp only [runEvents]
      exact ih _ (presenceInv_step st ev h)

/-- Per step, the last-seen map is unchanged unless the step is a
disconnect that empties the user's socket set, in which case it is stamped
with that disconnect's instant. -/
theorem lastSeen_step (st : ServerState) (ev : SEvent) :
    (stepEvent st ev).1.lastSeen = st.lastSeen ∨
      ∃ u sid t, ev = SEvent.disconnect u sid t ∧
        ((alGet st.connectedUsers u).getD []).filter (fun x => x ≠ sid) = [] ∧
        (stepEvent st ev).1.lastSeen = alSet st.lastSeen u t := by
  cases ev with
  | connect u sid => exact Or.inl (handleConnection_presence st u sid).2.2
  | disconnect u sid t =>
      by_cases hemp :
          ((((alGet st.connectedUsers u).getD []).filter (fun x => x ≠ sid)).isEmpty = true)
      · refine Or.inr ⟨u, sid, t, rfl, by simpa [List.isEmpty_iff] using hemp, ?_⟩
        simp only [stepEvent, handleDisconnect]
        rw [if_pos hemp]
      · refine Or.inl ?_
        simp only [stepEvent, handleDisconnect]
        rw [if_neg hemp]
  | msgSend u d t => exact Or.inl (handleMessageSend_presence st u d t).2.2
  | msgDelivered u mid sdr t => exact Or.inl rfl
  | msgRead u mid sdr t => exact Or.inl rfl
  | typingStart u r c => exact Or.inl rfl
  | typingStop u r c => exact Or.inl rfl

/-- C8: registering two handles for a fresh user and unregistering one
leaves the user online (socket set `[s2]`, flag `"true"`) with `last_seen`
untouched; unregistering the last handle empties the set, flips the flag to
`"false"` and stamps `last_seen` at that instant.  Moreover the online flag
reads `"true"` exactly for users with a non-empty socket set in every state
reachable from the initial one, and a step changes `last_seen` only when it
is a disconnect that empties its user's socket set. -/
theorem presence_two_handles_online_iff_last_seen
    (st stB : ServerState) (uid s1 s2 u0 : String) (t3 t4 : Nat)
    (evs : List SEvent) (evB : SEvent) (st1 st2 st3 st4 : ServerState)
    (hnone : alGet st.connectedUsers uid = none) (hne : s1 ≠ s2)
    (h1 : st1 = (handleConnection st uid s1).1)
    (h2 : st2 = (handleConnection st1 uid s2).1)
    (h3 : st3 = (handleDisconnect st2 uid s1 t3).1)
    (h4 : st4 = (handleDisconnect st3 uid s2 t4).1) :
    alGet st3.connectedUsers uid = some [s2] ∧
    alGet st3.onlineFlag uid = some "true" ∧
    alGet st3.lastSeen uid = alGet st.lastSeen uid ∧
    alGet st4.connectedUsers uid = none ∧
    alGet st4.onlineFlag uid = some "false" ∧
    alGet st4.lastSeen uid = some t4 ∧
    (alGet (runEvents ServerState.empty evs).1.onlineFlag u0 = some "true" ↔
      (alGet (runEvents ServerState.empty evs).1.connectedUsers u0).getD [] ≠ []) ∧
    ((stepEvent stB evB).1.lastSeen = stB.lastSeen ∨
      ∃ u sid t, evB = SEvent.disconnect u sid t ∧
        ((alGet stB.connectedUsers u).getD []).filter (fun x => x ≠ sid) = [] ∧
        (stepEvent stB evB).1.lastSeen = alSet stB.lastSeen u t) := by
  obtain ⟨h1c, h1f, h1l⟩ := handleConnection_presence st uid s1
  rw [hnone] at h1c
  rw [← h1] at h1c h1f h1l
  have h1get : alGet st1.connectedUsers uid = some [s1] := by
    rw [h1c]; exact alGet_set_self _ _ _
  obtain ⟨h2c, h2f, h2l⟩ := handleConnection_presence st1 uid s2
  rw [h1get] at h2c
  rw [← h2] at h2c h2f h2l
  have h2get : alGet st2.connectedUsers uid = some [s1, s2] := by
    rw [h2c]; exact alGet_set_self _ _ _
  have hupd : ((alGet st2.connectedUsers uid).getD []).filter (fun x => x ≠ s1) = [s2] := by
    rw [h2get]
    simp [Ne.symm hne]
  have h3eq : st3 = { st2 with connectedUsers := alSet st2.connectedUsers uid [s2] } := by
    have hcond : ¬((((alGet st2.connectedUsers uid).getD []).filter
        (fun x => x ≠ s1)).isEmpty = true) := by
      rw [hupd]; simp
    rw [h3]
    simp only [handleDisconnect]
    rw [if_neg hcond, hupd]
  have h3get : alGet st3.connectedUsers uid = some [s2] := by
    rw [h3eq]; exact alGet_set_self _ _ _
  have h3f : alGet st3.onlineFlag uid = some "true" := by
    rw [h3eq]
    show alGet st2.onlineFlag uid = some "true"
    rw [h2f]; exact alGet_set_self _ _ _
  have h3l : alGet st3.lastSeen uid = alGet st.lastSeen uid := by
    rw [h3eq]
    show alGet st2.lastSeen uid = alGet st.lastSeen uid
    rw [h2l, h1l]
  have h4eq : st4 =
      { st3 with
          connectedUsers := alDel st3.connectedUsers uid,
          onlineFlag := alSet st3.onlineFlag uid "false",
          onlineTTL := alDel st3.onlineTTL uid,
          lastSeen := alSet st3.lastSeen uid t4 } := by
    have hcond : ((((alGet st3.connectedUsers uid).getD []).filter
        (fun x => x ≠ s2)).isEmpty = true) := by
      rw [h3get]; simp
    rw [h4]
    simp only [handleDisconnect]
    rw [if_pos hcond]
  refine ⟨h3get, h3f, h3l, ?_, ?_, ?_, ?_, lastSeen_step stB evB⟩
  · rw [h4eq]
    show alGet (alDel st3.connectedUsers uid) uid = none
    rw [alGet_del]; simp
  · rw [h4eq]; exact alGet_set_self _ _ _
  · rw [h4eq]; exact alGet_set_self _ _ _
  · exact presenceInv_run ServerState.empty evs presenceInv_empty u0

/-- State after user `u` opens a first connection `k1` on a fresh server. -/
def w8a : ServerState := (handleConnection ServerState.empty "u" "k1").1

/-- State after `u` opens a second connection `k2`. -/
def w8b : ServerState := (handleConnection w8a "u" "k2").1

/-- State after `u` closes `k1` (one handle remains). -/
def w8c : ServerState := (handleDisconnect w8b "u" "k1" 5).1

/-- State after `u` closes `k2` (no handles remain). -/
def w8d : ServerState := (handleDisconnect w8c "u" "k2" 9).1

/-- Witness for C8 at a concrete user with two concrete connections. -/
theorem presence_two_handles_online_iff_last_seen_witness :
    alGet ServerState.empty.connectedUsers "u" = none ∧
    ("k1" : String) ≠ "k2" ∧
    (alGet w8c.connectedUsers "u" = some ["k2"] ∧
     alGet w8c.onlineFlag "u" = some "true" ∧
     alGet w8c.lastSeen "u" = alGet ServerState.empty.lastSeen "u" ∧
     alGet w8d.connectedUsers "u" = none ∧
     alGet w8d.onlineFlag "u" = some "false" ∧
     alGet w8d.lastSeen "u" = some 9 ∧
     (alGet (runEvents ServerState.empty [SEvent.connect "u" "k1"]).1.onlineFlag "u" =
         some "true" ↔
       (alGet (runEvents ServerState.empty
         [SEvent.connect "u" "k1"]).1.connectedUsers "u").getD [] ≠ []) ∧
     ((stepEvent liveState (SEvent.disconnect "a" "sa" 7)).1.lastSeen = liveState.lastSeen ∨
       ∃ u sid t, SEvent.disconnect "a" "sa" 7 = SEvent.disconnect u sid t ∧
         ((alGet liveState.connectedUsers u).getD []).filter (fun x => x ≠ sid) = [] ∧
         (stepEvent liveState (SEvent.disconnect "a" "sa" 7)).1.lastSeen =
           alSet liveState.lastSeen u t)) :=
  ⟨by decide, by decide,
   presence_two_handles_online_iff_last_seen ServerState.empty liveState "u" "k1" "k2" "u"
     5 9 [SEvent.connect "u" "k1"] (SEvent.disconnect "a" "sa" 7) w8a w8b w8c w8d
     (by decide) (by decide) rfl rfl rfl rfl⟩

end Hushify
